import Mathlib

/-!
Shallow embedding of the crypto-trade arbitrage engine
(src/inventory.py, src/risk_engine.py, src/strategy.py, src/execution.py,
src/models.py) and proofs about the claims of its specification.

Python `float` amounts, prices and timestamps are modelled as `ℚ`;
Python `dict`s are modelled as association lists with first-key-wins
lookup and in-place update.
-/

/-- Association-list model of a Python `dict` with `String` keys. -/
abbrev Dict (α : Type) := List (String × α)

/-- `d[k]` as an `Option`: first binding for `k`, if any. -/
def dget {α : Type} (d : Dict α) (k : String) : Option α :=
  match d with
  | [] => none
  | (k', v) :: rest => if k' = k then some v else dget rest k

/-- `d[k] = v`: replace the existing binding in place, or append. -/
def dset {α : Type} (d : Dict α) (k : String) (v : α) : Dict α :=
  match d with
  | [] => [(k, v)]
  | (k', v') :: rest => if k' = k then (k', v) :: rest else (k', v') :: dset rest k v

/-!
## Inventory ledger (src/inventory.py, class InventoryEngine)

State: `confirmed_balances` and `locked_balances`, each a dict from
exchange name to a dict from currency to amount.
-/

structure InventoryEngine where
  confirmed_balances : Dict (Dict ℚ)
  locked_balances : Dict (Dict ℚ)
  deriving Repr, DecidableEq

/-- The engine's initial state: both dictionaries empty. -/
def InventoryEngine.empty : InventoryEngine := ⟨[], []⟩

/-- `self.confirmed_balances.get(exchange, {}).get(currency, 0.0)`. -/
def confirmedAmt (s : InventoryEngine) (exchange currency : String) : ℚ :=
  (dget ((dget s.confirmed_balances exchange).getD []) currency).getD 0

/-- `self.locked_balances.get(exchange, {}).get(currency, 0.0)`. -/
def lockedAmt (s : InventoryEngine) (exchange currency : String) : ℚ :=
  (dget ((dget s.locked_balances exchange).getD []) currency).getD 0

/-- `InventoryEngine.get_available_balance`: `max(0.0, confirmed - locked)`. -/
def get_available_balance (s : InventoryEngine) (exchange currency : String) : ℚ :=
  max 0 (confirmedAmt s exchange currency - lockedAmt s exchange currency)

/-- `InventoryEngine.reserve_liquidity`: check `available >= amount`; on success
`setdefault` the exchange's lock dict and add `amount` to the currency's lock. -/
def reserve_liquidity (s : InventoryEngine) (exchange currency : String) (amount : ℚ) :
    Bool × InventoryEngine :=
  let available := get_available_balance s exchange currency
  if amount ≤ available then
    let inner := (dget s.locked_balances exchange).getD []
    let current_lock := (dget inner currency).getD 0
    let locked' := dset s.locked_balances exchange (dset inner currency (current_lock + amount))
    (true, { s with locked_balances := locked' })
  else
    (false, s)

/-- `InventoryEngine.rollback_liquidity`: if both keys are present, set the lock to
`max(0.0, lock - amount)`; otherwise do nothing. -/
def rollback_liquidity (s : InventoryEngine) (exchange currency : String) (amount : ℚ) :
    InventoryEngine :=
  match dget s.locked_balances exchange with
  | none => s
  | some inner =>
    match dget inner currency with
    | none => s
    | some l =>
      let locked' := dset s.locked_balances exchange (dset inner currency (max 0 (l - amount)))
      { s with locked_balances := locked' }

/-- `InventoryEngine.confirm_trade`. The symbol `base/quote` is passed split.
Returns `.ok` with the final state on normal return, or `.error` with the
partially mutated state at the point the Python code raises `KeyError`
(the direct write `self.confirmed_balances[exchange][...]` when `exchange`
has no entry in `confirmed_balances`; the preceding lock rollback has
already executed by then). A side other than `"buy"`/`"sell"` is a no-op. -/
def confirm_trade (s : InventoryEngine) (exchange base quote side : String)
    (amount price fee_rate : ℚ) : Except InventoryEngine InventoryEngine :=
  let cost_usdt := amount * price
  if side = "buy" then
    let s1 := rollback_liquidity s exchange quote cost_usdt
    match dget s1.confirmed_balances exchange with
    | none => .error s1
    | some inner =>
      let current_quote := (dget inner quote).getD 0
      let inner2 := dset inner quote (max 0 (current_quote - cost_usdt))
      let current_base := (dget inner2 base).getD 0
      let recv_amount := amount * (1 - fee_rate)
      let inner3 := dset inner2 base (current_base + recv_amount)
      .ok { s1 with confirmed_balances := dset s1.confirmed_balances exchange inner3 }
  else if side = "sell" then
    let s1 := rollback_liquidity s exchange base amount
    match dget s1.confirmed_balances exchange with
    | none => .error s1
    | some inner =>
      let current_base := (dget inner base).getD 0
      let inner2 := dset inner base (max 0 (current_base - amount))
      let current_quote := (dget inner2 quote).getD 0
      let recv_usdt := cost_usdt * (1 - fee_rate)
      let inner3 := dset inner2 quote (current_quote + recv_usdt)
      .ok { s1 with confirmed_balances := dset s1.confirmed_balances exchange inner3 }
  else
    .ok s

/-- The per-venue outcome of the `fetch_balance` call gathered by
`sync_balances`: `none` models an exception or a non-dict result (the loop
`continue`s / skips), `some none` a dict without a `'free'` key (locks are
still reset), `some (some free)` a dict with a `'free'` mapping. -/
abbrev FetchResult := Option (Option (Dict ℚ))

/-- The dict comprehension `{k: float(v) for k, v in res['free'].items() if float(v) > 0}`. -/
def cleanBal (free : Dict ℚ) : Dict ℚ :=
  free.filter (fun kv => 0 < kv.2)

/-- One iteration of the `sync_balances` loop for the venue/result pair `vr`:
skip on exception or non-dict, otherwise replace confirmed balances from
`'free'` when present and reset the venue's locks to the empty dict. -/
def syncStep (st : InventoryEngine) (vr : String × FetchResult) : InventoryEngine :=
  match vr.2 with
  | none => st
  | some r =>
    let st1 := match r with
      | some free =>
        let conf' := dset st.confirmed_balances vr.1 (cleanBal free)
        { st with confirmed_balances := conf' }
      | none => st
    let locked' := dset st1.locked_balances vr.1 []
    { st1 with locked_balances := locked' }

/-- `InventoryEngine.sync_balances`, given the per-venue fetch results in venue
order. -/
def sync_balances (s : InventoryEngine) (results : List (String × FetchResult)) :
    InventoryEngine :=
  results.foldl syncStep s

/-!
## Data model (src/models.py)
-/

/-- `TickerData`: one venue's top-of-book snapshot for one instrument. -/
structure TickerData where
  exchange : String
  symbol : String
  bid_price : ℚ
  bid_vol : ℚ
  ask_price : ℚ
  ask_vol : ℚ
  timestamp : ℚ
  deriving Repr, DecidableEq

/-- `Opportunity`: a qualified arbitrage signal. -/
structure Opportunity where
  id : String
  symbol : String
  buy_ex : String
  sell_ex : String
  buy_price : ℚ
  sell_price : ℚ
  quantity : ℚ
  gross_spread_bps : ℚ
  net_profit_usd : ℚ
  timestamp : ℚ
  deriving Repr, DecidableEq

/-- The configuration values the core reads (`config.yaml` sections
`risk_compliance`, `target`, `system`, `exchanges`). `is_testnet` stands for
`config['system'].get('environment') == 'testnet'`; `fee_rates` is the
per-exchange `fee_rate` entry, looked up with default `0.001`. -/
structure Config where
  min_spread_bps : ℚ
  max_daily_drawdown_usd : ℚ
  max_exposure_per_trade_usd : ℚ
  max_consecutive_failures : ℕ
  max_data_age_seconds : ℚ
  sizing_amount : ℚ
  is_testnet : Bool
  fee_rates : Dict ℚ
  dry_run : Bool
  deriving Repr, DecidableEq

/-- `self.config['exchanges'][name].get('fee_rate', 0.001)`. -/
def feeRate (cfg : Config) (name : String) : ℚ :=
  (dget cfg.fee_rates name).getD (1 / 1000)

/-!
## Risk engine (src/risk_engine.py, class RiskEngine)
-/

/-- The mutable state of `RiskEngine` (the UI text field is omitted). -/
structure RiskEngine where
  daily_pnl : ℚ
  consecutive_fails : ℕ
  kill_switch : Bool
  total_attempts : ℕ
  success_count : ℕ
  fail_count : ℕ
  checks_count : ℕ
  deriving Repr, DecidableEq

/-- `RiskEngine.__init__`: everything zeroed, kill-switch off. -/
def RiskEngine.init : RiskEngine := ⟨0, 0, false, 0, 0, 0, 0⟩

/-- `RiskEngine.increment_check_count`. -/
def increment_check_count (s : RiskEngine) : RiskEngine :=
  { s with checks_count := s.checks_count + 1 }

/-- `RiskEngine.validate_market_data`, with `data.age = now - data.timestamp`. -/
def validate_market_data (cfg : Config) (now : ℚ) (data : TickerData) : Bool :=
  if cfg.max_data_age_seconds < now - data.timestamp then false
  else if data.bid_price ≤ 0 ∨ data.ask_price ≤ 0 then false
  else true

/-- `RiskEngine.pre_trade_check`: the gatekeeper, returning the decision and the
(possibly kill-switched) state. -/
def pre_trade_check (cfg : Config) (s : RiskEngine) (opp : Opportunity) :
    Bool × RiskEngine :=
  if s.kill_switch then (false, s)
  else if opp.gross_spread_bps < cfg.min_spread_bps then (false, s)
  else if s.daily_pnl < -cfg.max_daily_drawdown_usd then
    (false, { s with kill_switch := true })
  else if cfg.max_exposure_per_trade_usd < opp.quantity * opp.buy_price then (false, s)
  else (true, s)

/-- `RiskEngine.record_execution_result`. -/
def record_execution_result (cfg : Config) (s : RiskEngine) (success : Bool)
    (pnl_impact : ℚ) : RiskEngine :=
  let s1 := { s with daily_pnl := s.daily_pnl + pnl_impact,
                     total_attempts := s.total_attempts + 1 }
  if success then
    { s1 with success_count := s1.success_count + 1, consecutive_fails := 0 }
  else
    let s2 := { s1 with fail_count := s1.fail_count + 1,
                        consecutive_fails := s1.consecutive_fails + 1 }
    if cfg.max_consecutive_failures ≤ s2.consecutive_fails then
      { s2 with kill_switch := true }
    else s2

/-!
## Execution service (src/execution.py, class ExecutionService)
-/

/-- A `create_order(symbol, 'market', side, quantity)` request sent to a venue. -/
structure OrderReq where
  exchange : String
  symbol : String
  order_type : String
  side : String
  quantity : ℚ
  deriving Repr, DecidableEq

/-- The outcome of one leg's `create_order` as seen after `asyncio.gather(...,
return_exceptions=True)`: a dict (with optional `'average'`/`'price'` floats),
some non-dict value, or an `Exception`. -/
inductive LegResult
  | fill (average : Option ℚ) (price : Option ℚ)
  | fillOther
  | err
  deriving Repr, DecidableEq

/-- `not isinstance(res, Exception)`. -/
def LegResult.isFilled : LegResult → Bool
  | .err => false
  | _ => true

/-- Outcome of the unwind `create_order` inside `_neutralize_orphan`'s `try`. -/
inductive OrderOutcome
  | ok
  | raised
  deriving Repr, DecidableEq

/-- Python's `x or y` on an optional float: `None` and `0.0` are falsy. -/
def orFloat (x : Option ℚ) (y : ℚ) : ℚ :=
  match x with
  | some v => if v = 0 then y else v
  | none => y

/-- `ExecutionService._neutralize_orphan`: returns the PnL impact and the unwind
order(s) dispatched. The order is dispatched even when it raises; the loss
estimate `-(quantity * price * 0.05)` is recorded only on success. -/
def neutralize_orphan (buy_ok sell_ok : Bool) (opp : Opportunity)
    (unwind : OrderOutcome) : ℚ × List OrderReq :=
  if buy_ok then
    let req : OrderReq := ⟨opp.buy_ex, opp.symbol, "market", "sell", opp.quantity⟩
    match unwind with
    | .ok => (-(opp.quantity * opp.buy_price * (5 / 100)), [req])
    | .raised => (0, [req])
  else if sell_ok then
    let req : OrderReq := ⟨opp.sell_ex, opp.symbol, "market", "buy", opp.quantity⟩
    match unwind with
    | .ok => (-(opp.quantity * opp.sell_price * (5 / 100)), [req])
    | .raised => (0, [req])
  else (0, [])

/-- `ExecutionService.execute_atomic`, given the two legs' gathered results and
the outcome of a potential unwind order. Returns the
`(success, realized_pnl, real_buy_price, real_sell_price)` tuple together with
the list of neutralization orders dispatched. -/
def execute_atomic (cfg : Config) (opp : Opportunity) (buy_res sell_res : LegResult)
    (unwind : OrderOutcome) : (Bool × ℚ × ℚ × ℚ) × List OrderReq :=
  if cfg.dry_run then ((true, opp.net_profit_usd, opp.buy_price, opp.sell_price), [])
  else
    let buy_filled := buy_res.isFilled
    let sell_filled := sell_res.isFilled
    if buy_filled && sell_filled then
      let prices :=
        match buy_res, sell_res with
        | .fill bavg bpr, .fill savg spr =>
          (orFloat bavg (orFloat bpr opp.buy_price), orFloat savg (orFloat spr opp.sell_price))
        | _, _ => (opp.buy_price, opp.sell_price)
      let real_buy := if prices.1 ≤ 0 then opp.buy_price else prices.1
      let real_sell := if prices.2 ≤ 0 then opp.sell_price else prices.2
      ((true, (real_sell - real_buy) * opp.quantity, real_buy, real_sell), [])
    else if !buy_filled && !sell_filled then
      ((false, 0, 0, 0), [])
    else
      let res := neutralize_orphan buy_filled sell_filled opp unwind
      ((false, res.1, 0, 0), res.2)

/-!
## Strategy engine detection pass (src/strategy.py, StrategyEngine.check_arbitrage)

The pass is embedded up to the emission of the first risk-approved
`Opportunity` (the point where the code enters `execute_opportunity`): it
returns that opportunity, if any, together with the risk state as mutated by
the `pre_trade_check` calls made along the way. `base` is `symbol.split('/')[0]`
and the quote currency is the literal `'USDT'` used by the code.
-/

/-- The body of the inner pair loop for one ordered candidate pair
`(ex_a = buy venue, ex_b = sell venue)`: all skips, sizing, fee netting and
the final `pre_trade_check`. Returns the emitted opportunity (if this pair
qualifies) and the risk state. -/
def evalPair (cfg : Config) (risk : RiskEngine) (inv : InventoryEngine) (now : ℚ)
    (symbol base ex_a ex_b : String) (tick_a tick_b : TickerData) :
    Option Opportunity × RiskEngine :=
  if tick_a.ask_price ≤ 0 ∨ tick_b.bid_price ≤ 0 then (none, risk)
  else
    let buy_price := tick_a.ask_price
    let sell_price := tick_b.bid_price
    if sell_price ≤ buy_price then (none, risk)
    else
      let spread_bps := (sell_price - buy_price) / buy_price * 10000
      if cfg.min_spread_bps < spread_bps then
        let data_valid := validate_market_data cfg now tick_a
          && validate_market_data cfg now tick_b
        if ¬data_valid ∧ ¬cfg.is_testnet then (none, risk)
        else
          let target_qty := cfg.sizing_amount / buy_price
          let market_vol0 := min tick_a.ask_vol tick_b.bid_vol
          let market_vol := if cfg.is_testnet ∧ market_vol0 ≤ 0 then target_qty else market_vol0
          let balance_usdt := get_available_balance inv ex_a "USDT"
          let max_buy_qty := balance_usdt * (99 / 100) / buy_price
          let balance_coin := get_available_balance inv ex_b base
          let max_sell_qty := balance_coin
          let qty := min (min (min target_qty market_vol) max_buy_qty) max_sell_qty
          if qty * buy_price < 10 then (none, risk)
          else
            let est_profit := (sell_price - buy_price) * qty
            let fee_rate_a := feeRate cfg ex_a
            let fee_rate_b := feeRate cfg ex_b
            let total_fees := qty * buy_price * fee_rate_a + qty * sell_price * fee_rate_b
            let net_profit := est_profit - total_fees
            if net_profit ≤ 0 then (none, risk)
            else
              let opp : Opportunity :=
                ⟨symbol, symbol, ex_a, ex_b, buy_price, sell_price, qty,
                  spread_bps, net_profit, now⟩
              let checked := pre_trade_check cfg risk opp
              if checked.1 then (some opp, checked.2) else (none, checked.2)
      else (none, risk)

/-- The ordered venue pairs scanned by the double loop
`for i in range(len(keys)): for j in range(len(keys)): if i == j: continue`. -/
def ordPairs (keys : List String) : List (String × String) :=
  (keys.enum.map (fun p =>
    keys.enum.filterMap (fun q => if p.1 = q.1 then none else some (p.2, q.2)))).flatten

/-- Scan candidate pairs in loop order, threading the risk state through the
`pre_trade_check` calls, stopping at the first approved opportunity. -/
def scanPairs (cfg : Config) (risk : RiskEngine) (inv : InventoryEngine) (now : ℚ)
    (symbol base : String) (data : Dict TickerData) :
    List (String × String) → Option Opportunity × RiskEngine
  | [] => (none, risk)
  | (a, b) :: rest =>
    match dget data a, dget data b with
    | some tick_a, some tick_b =>
      match evalPair cfg risk inv now symbol base a b tick_a tick_b with
      | (some opp, risk') => (some opp, risk')
      | (none, risk') => scanPairs cfg risk' inv now symbol base data rest
    | _, _ => scanPairs cfg risk inv now symbol base data rest

/-- `StrategyEngine.check_arbitrage` for one instrument, embedded up to the
emission of the first approved opportunity. `data` is
`self.market_cache[symbol]` (venue name → ticker), `active_trades` the
in-flight instrument set. -/
def check_arbitrage (cfg : Config) (risk : RiskEngine) (inv : InventoryEngine)
    (now : ℚ) (symbol base : String) (active_trades : List String)
    (data : Dict TickerData) : Option Opportunity × RiskEngine :=
  let risk := increment_check_count risk
  if symbol ∈ active_trades then (none, risk)
  else if data.length < 2 then (none, risk)
  else scanPairs cfg risk inv now symbol base data (ordPairs (data.map Prod.fst))

/-- Modelled from the spec (§4.3 step 4), for comparison with the code's sizing:
"the minimum of: target notional ÷ buy_price, available market size at
top-of-book, buy-side available quote-currency balance ÷ buy_price, sell-side
available base-currency balance". Note: no `0.99` haircut here. -/
def specSizedQty (cfg : Config) (inv : InventoryEngine) (ex_a ex_b base : String)
    (buy_price market_size : ℚ) : ℚ :=
  min (min (min (cfg.sizing_amount / buy_price) market_size)
    (get_available_balance inv ex_a "USDT" / buy_price))
    (get_available_balance inv ex_b base)

/-!
## Ledger operation sequences

`LedgerOp` packages the four public ledger operations so that reachability
("any sequence of reserve, rollback, confirm_fill, and sync operations")
can be stated. A `confirm` that raises `KeyError` leaves the program in the
partially mutated state carried by the `.error` constructor.
-/

/-- Collapse `confirm_trade`'s result to the state the process is left in. -/
def exceptState : Except InventoryEngine InventoryEngine → InventoryEngine
  | .ok s => s
  | .error s => s

inductive LedgerOp
  | reserve (exchange currency : String) (amount : ℚ)
  | rollback (exchange currency : String) (amount : ℚ)
  | confirm (exchange base quote side : String) (amount price fee_rate : ℚ)
  | sync (results : List (String × FetchResult))

def applyOp (s : InventoryEngine) : LedgerOp → InventoryEngine
  | .reserve ex cur a => (reserve_liquidity s ex cur a).2
  | .rollback ex cur a => rollback_liquidity s ex cur a
  | .confirm ex base quote side a p f => exceptState (confirm_trade s ex base quote side a p f)
  | .sync results => sync_balances s results

/-- The operations' real domain: quantities, prices and fee rates are
nonnegative floats and fee rates are at most 1. -/
def ValidOp : LedgerOp → Prop
  | .reserve _ _ a => 0 ≤ a
  | .rollback _ _ a => 0 ≤ a
  | .confirm _ _ _ _ a p f => 0 ≤ a ∧ 0 ≤ p ∧ 0 ≤ f ∧ f ≤ 1
  | .sync _ => True

instance : DecidablePred ValidOp := fun op => by
  cases op <;> (unfold ValidOp; infer_instance)

/-- Run a sequence of ledger operations from the empty ledger. -/
def runOps (ops : List LedgerOp) : InventoryEngine :=
  ops.foldl applyOp InventoryEngine.empty

/-- The ledger invariant: per (venue, currency), the locked amount is
nonnegative and never exceeds the confirmed amount. -/
def LedgerInv (s : InventoryEngine) : Prop :=
  ∀ ex cur, 0 ≤ lockedAmt s ex cur ∧ lockedAmt s ex cur ≤ confirmedAmt s ex cur

/-!
### Pointwise accounting lemmas
-/

/-!
## Risk-state operation sequences (for the kill-switch one-way property)
-/

/-- The public `RiskEngine` operations named by the spec's kill-switch claim. -/
inductive RiskOp
  | approve (opp : Opportunity)
  | record (success : Bool) (pnl : ℚ)
  | validate (now : ℚ) (data : TickerData)

/-- Apply one risk operation to the risk state. `validate_market_data` is a
pure read (it returns a `Bool` and mutates nothing), so it leaves the state
unchanged. -/
def applyRiskOp (cfg : Config) (s : RiskEngine) : RiskOp → RiskEngine
  | .approve opp => (pre_trade_check cfg s opp).2
  | .record success pnl => record_execution_result cfg s success pnl
  | .validate _ _ => s

def applyRiskOps (cfg : Config) (s : RiskEngine) (ops : List RiskOp) : RiskEngine :=
  ops.foldl (applyRiskOp cfg) s

/-- The last `'free'` mapping written for venue `v` by a `sync_balances` pass
over `results` (later entries win), if any. -/
def lastFree : List (String × FetchResult) → String → Option (Dict ℚ)
  | [], _ => none
  | vr :: rest, v =>
    match lastFree rest v with
    | some free => some free
    | none =>
      match vr.2 with
      | some (some free) => if vr.1 = v then some free else none
      | _ => none


theorem dget_dset_self {α : Type} (d : Dict α) (k : String) (v : α) :
    dget (dset d k v) k = some v := by
  induction d with
  | nil => simp [dget, dset]
  | cons hd tl ih =>
    obtain ⟨k', v'⟩ := hd
    by_cases h : k' = k <;> simp [dget, dset, h, ih]

theorem dget_dset_ne {α : Type} (d : Dict α) (k k' : String) (v : α) (h : k ≠ k') :
    dget (dset d k v) k' = dget d k' := by
  induction d with
  | nil => simp [dget, dset, h]
  | cons hd tl ih =>
    obtain ⟨k0, v0⟩ := hd
    by_cases h0 : k0 = k
    · subst h0
      simp [dget, dset, h]
    · by_cases h1 : k0 = k' <;> simp [dget, dset, h0, h1, ih, Ne.symm h]

/-- `dget` after `dset`, fully case-split. -/
theorem dget_dset {α : Type} (d : Dict α) (k k' : String) (v : α) :
    dget (dset d k v) k' = if k = k' then some v else dget d k' := by
  by_cases h : k = k'
  · subst h; simp [dget_dset_self]
  · simp [h, dget_dset_ne d k k' v h]

theorem confirmedAmt_set_inner (s : InventoryEngine) (ex : String) (inner : Dict ℚ)
    (ex' cur' : String) :
    confirmedAmt { s with confirmed_balances := dset s.confirmed_balances ex inner } ex' cur' =
      if ex = ex' then (dget inner cur').getD 0 else confirmedAmt s ex' cur' := by
  by_cases h : ex = ex' <;> simp [confirmedAmt, dget_dset, h]

theorem lockedAmt_set_inner (s : InventoryEngine) (ex : String) (inner : Dict ℚ)
    (ex' cur' : String) :
    lockedAmt { s with locked_balances := dset s.locked_balances ex inner } ex' cur' =
      if ex = ex' then (dget inner cur').getD 0 else lockedAmt s ex' cur' := by
  by_cases h : ex = ex' <;> simp [lockedAmt, dget_dset, h]

theorem confirmedAmt_set_locked (s : InventoryEngine) (L : Dict (Dict ℚ)) (ex cur : String) :
    confirmedAmt { s with locked_balances := L } ex cur = confirmedAmt s ex cur := rfl

theorem lockedAmt_set_confirmed (s : InventoryEngine) (C : Dict (Dict ℚ)) (ex cur : String) :
    lockedAmt { s with confirmed_balances := C } ex cur = lockedAmt s ex cur := rfl

theorem rollback_confirmed (s : InventoryEngine) (ex cur : String) (a : ℚ) :
    (rollback_liquidity s ex cur a).confirmed_balances = s.confirmed_balances := by
  unfold rollback_liquidity
  cases dget s.locked_balances ex with
  | none => rfl
  | some inner =>
    dsimp only
    cases dget inner cur <;> rfl

theorem confirmedAmt_rollback (s : InventoryEngine) (ex cur : String) (a : ℚ)
    (ex' cur' : String) :
    confirmedAmt (rollback_liquidity s ex cur a) ex' cur' = confirmedAmt s ex' cur' := by
  simp [confirmedAmt, rollback_confirmed]

theorem lockedAmt_rollback (s : InventoryEngine) (ex cur : String) (a : ℚ) (ha : 0 ≤ a)
    (ex' cur' : String) :
    lockedAmt (rollback_liquidity s ex cur a) ex' cur' =
      if ex = ex' ∧ cur = cur' then max 0 (lockedAmt s ex cur - a)
      else lockedAmt s ex' cur' := by
  unfold rollback_liquidity
  cases h1 : dget s.locked_balances ex with
  | none =>
    have hz : lockedAmt s ex cur = 0 := by simp [lockedAmt, dget, h1]
    by_cases h : ex = ex' ∧ cur = cur'
    · obtain ⟨he, hc⟩ := h
      subst he; subst hc
      rw [hz, zero_sub]
      simp [max_eq_left (neg_nonpos.mpr ha)]
    · simp [h]
  | some inner =>
    dsimp only
    cases h2 : dget inner cur with
    | none =>
      have hz : lockedAmt s ex cur = 0 := by simp [lockedAmt, h1, h2]
      by_cases h : ex = ex' ∧ cur = cur'
      · obtain ⟨he, hc⟩ := h
        subst he; subst hc
        rw [hz, zero_sub]
        simp [max_eq_left (neg_nonpos.mpr ha)]
      · simp [h]
    | some l =>
      have hl : lockedAmt s ex cur = l := by simp [lockedAmt, h1, h2]
      have hstep := lockedAmt_set_inner s ex (dset inner cur (max 0 (l - a))) ex' cur'
      dsimp only
      rw [hstep, hl]
      by_cases he : ex = ex'
      · subst he
        by_cases hc : cur = cur'
        · subst hc; simp [dget_dset_self]
        · simp [hc, dget_dset_ne _ _ _ _ hc, lockedAmt, h1]
      · simp [he]

theorem exceptState_ok (s : InventoryEngine) : exceptState (.ok s) = s := rfl

theorem exceptState_error (s : InventoryEngine) : exceptState (.error s) = s := rfl

/-- Full characterization of a successful `reserve_liquidity`: returns `true`,
adds `amount` to exactly the requested key's lock, and leaves confirmed
balances untouched. -/
theorem reserve_liquidity_success (s : InventoryEngine) (ex cur : String) (a : ℚ)
    (h : a ≤ get_available_balance s ex cur) :
    (reserve_liquidity s ex cur a).1 = true
    ∧ (∀ ex' cur', lockedAmt (reserve_liquidity s ex cur a).2 ex' cur' =
        if ex = ex' ∧ cur = cur' then lockedAmt s ex cur + a else lockedAmt s ex' cur')
    ∧ (reserve_liquidity s ex cur a).2.confirmed_balances = s.confirmed_balances := by
  unfold reserve_liquidity
  dsimp only
  rw [if_pos h]
  refine ⟨rfl, ?_, rfl⟩
  intro ex' cur'
  rw [lockedAmt_set_inner]
  by_cases he : ex = ex'
  · subst he
    by_cases hc : cur = cur'
    · subst hc
      simp [dget_dset_self, lockedAmt]
    · simp [hc, dget_dset_ne _ _ _ _ hc, lockedAmt]
  · simp [he]

/-- A denied `reserve_liquidity` returns `false` and the unchanged state. -/
theorem reserve_liquidity_fail (s : InventoryEngine) (ex cur : String) (a : ℚ)
    (h : ¬ a ≤ get_available_balance s ex cur) :
    reserve_liquidity s ex cur a = (false, s) := by
  unfold reserve_liquidity
  dsimp only
  rw [if_neg h]

theorem ledgerInv_nonneg_confirmed {s : InventoryEngine} (h : LedgerInv s)
    (ex cur : String) : 0 ≤ confirmedAmt s ex cur :=
  (h ex cur).1.trans (h ex cur).2

theorem inv_reserve {s : InventoryEngine} (h : LedgerInv s) (ex cur : String)
    {a : ℚ} (ha : 0 ≤ a) : LedgerInv (reserve_liquidity s ex cur a).2 := by
  by_cases hav : a ≤ get_available_balance s ex cur
  · obtain ⟨-, hlock, hconf⟩ := reserve_liquidity_success s ex cur a hav
    intro ex' cur'
    have hc : confirmedAmt (reserve_liquidity s ex cur a).2 ex' cur'
        = confirmedAmt s ex' cur' := by
      simp [confirmedAmt, hconf]
    rw [hlock ex' cur', hc]
    by_cases hk : ex = ex' ∧ cur = cur'
    · obtain ⟨he, hcu⟩ := hk
      subst he; subst hcu
      rw [if_pos ⟨rfl, rfl⟩]
      constructor
      · linarith [(h ex cur).1]
      · rcases le_max_iff.mp hav with h0 | h1
        · have haz : a = 0 := le_antisymm h0 ha
          rw [haz, add_zero]
          exact (h ex cur).2
        · linarith [(h ex cur).2]
    · rw [if_neg hk]
      exact h ex' cur'
  · rw [reserve_liquidity_fail s ex cur a hav]
    exact h

theorem inv_rollback {s : InventoryEngine} (h : LedgerInv s) (ex cur : String)
    {a : ℚ} (ha : 0 ≤ a) : LedgerInv (rollback_liquidity s ex cur a) := by
  intro ex' cur'
  rw [confirmedAmt_rollback, lockedAmt_rollback s ex cur a ha]
  by_cases hk : ex = ex' ∧ cur = cur'
  · obtain ⟨he, hcu⟩ := hk
    subst he; subst hcu
    rw [if_pos ⟨rfl, rfl⟩]
    refine ⟨le_max_left 0 _, max_le (ledgerInv_nonneg_confirmed h ex cur) ?_⟩
    linarith [(h ex cur).1, (h ex cur).2]
  · rw [if_neg hk]
    exact h ex' cur'

theorem cleanBal_nonneg (free : Dict ℚ) (cur : String) :
    0 ≤ (dget (cleanBal free) cur).getD 0 := by
  unfold cleanBal
  induction free with
  | nil => simp [dget]
  | cons kv rest ih =>
    obtain ⟨k, v⟩ := kv
    by_cases hv : 0 < v
    · by_cases hk : k = cur <;>
        simp [List.filter_cons, hv, dget, hk, ih, le_of_lt hv]
    · simp [List.filter_cons, hv, ih]

theorem lockedAmt_syncStep (st : InventoryEngine) (v : String) (r : FetchResult)
    (ex' cur' : String) :
    lockedAmt (syncStep st (v, r)) ex' cur' =
      if r.isSome ∧ v = ex' then 0 else lockedAmt st ex' cur' := by
  cases r with
  | none => simp [syncStep]
  | some ro =>
    cases ro with
    | none =>
      dsimp only [syncStep]
      rw [lockedAmt_set_inner]
      by_cases h : v = ex' <;> simp [h, dget]
    | some free =>
      dsimp only [syncStep]
      simp only [lockedAmt, dget_dset]
      by_cases h : v = ex' <;> simp [h, dget, lockedAmt]

theorem confirmedAmt_syncStep (st : InventoryEngine) (v : String) (r : FetchResult)
    (ex' cur' : String) :
    confirmedAmt (syncStep st (v, r)) ex' cur' =
      match r with
      | some (some free) =>
        if v = ex' then (dget (cleanBal free) cur').getD 0 else confirmedAmt st ex' cur'
      | _ => confirmedAmt st ex' cur' := by
  cases r with
  | none => simp [syncStep]
  | some ro =>
    cases ro with
    | none => simp [syncStep, confirmedAmt]
    | some free =>
      dsimp only [syncStep]
      simp only [confirmedAmt, dget_dset]
      by_cases h : v = ex' <;> simp [h, confirmedAmt]

theorem inv_syncStep {st : InventoryEngine} (h : LedgerInv st)
    (vr : String × FetchResult) : LedgerInv (syncStep st vr) := by
  obtain ⟨v, r⟩ := vr
  intro ex' cur'
  rw [lockedAmt_syncStep, confirmedAmt_syncStep]
  cases r with
  | none => simpa using h ex' cur'
  | some ro =>
    cases ro with
    | none =>
      by_cases hv : v = ex'
      · simp only [hv, Option.isSome_some, and_self, if_true]
        exact ⟨le_refl 0, ledgerInv_nonneg_confirmed h ex' cur'⟩
      · simp only [Option.isSome_some, true_and, hv, if_false]
        exact h ex' cur'
    | some free =>
      by_cases hv : v = ex'
      · simp only [hv, Option.isSome_some, and_self, if_true]
        exact ⟨le_refl 0, cleanBal_nonneg free cur'⟩
      · simp only [Option.isSome_some, true_and, hv, if_false]
        exact h ex' cur'

theorem inv_sync_foldl : ∀ (results : List (String × FetchResult))
    (s : InventoryEngine), LedgerInv s → LedgerInv (results.foldl syncStep s)
  | [], _, h => h
  | vr :: rest, s, h => inv_sync_foldl rest (syncStep s vr) (inv_syncStep h vr)

theorem inv_sync {s : InventoryEngine} (h : LedgerInv s)
    (results : List (String × FetchResult)) : LedgerInv (sync_balances s results) :=
  inv_sync_foldl results s h

/-- Shared shape of `confirm_trade`'s buy and sell branches after the lock
rollback: currency `c1` of venue `ex` is decremented (floored at zero) by `d`
and currency `c2` is incremented by `recv ≥ 0`. The hypothesis `hlock1` is what
the preceding rollback guarantees for `c1`'s lock. -/
theorem inv_confirm_core (s1 : InventoryEngine) (h1 : LedgerInv s1)
    (ex c1 c2 : String) (d recv : ℚ) (hrecv : 0 ≤ recv)
    (hlock1 : lockedAmt s1 ex c1 ≤ max 0 (confirmedAmt s1 ex c1 - d))
    (inner : Dict ℚ) (hc : dget s1.confirmed_balances ex = some inner) :
    LedgerInv (InventoryEngine.mk
      (dset s1.confirmed_balances ex
        (dset (dset inner c1 (max 0 ((dget inner c1).getD 0 - d))) c2
          ((dget (dset inner c1 (max 0 ((dget inner c1).getD 0 - d))) c2).getD 0 + recv)))
      s1.locked_balances) := by
  have hconfEq : ∀ cur0, confirmedAmt s1 ex cur0 = (dget inner cur0).getD 0 := by
    intro cur0
    simp [confirmedAmt, hc]
  have hval2 : ∀ cur0, (dget (dset inner c1 (max 0 ((dget inner c1).getD 0 - d))) cur0).getD 0
      = if c1 = cur0 then max 0 (confirmedAmt s1 ex c1 - d) else confirmedAmt s1 ex cur0 := by
    intro cur0
    rw [dget_dset]
    by_cases h' : c1 = cur0
    · simp [h', hconfEq]
    · simp [h', hconfEq]
  intro ex' cur'
  refine ⟨(h1 ex' cur').1, ?_⟩
  show lockedAmt s1 ex' cur' ≤ _
  rw [confirmedAmt_set_inner]
  by_cases he : ex = ex'
  · rw [if_pos he]
    subst he
    rw [dget_dset]
    by_cases h2 : c2 = cur'
    · rw [if_pos h2]
      subst h2
      rw [Option.getD_some, hval2 c2]
      by_cases h12 : c1 = c2
      · rw [if_pos h12]
        subst h12
        have := hlock1
        linarith
      · rw [if_neg h12]
        have := (h1 ex c2).2
        linarith
    · rw [if_neg h2]
      rw [hval2 cur']
      by_cases h1c : c1 = cur'
      · rw [if_pos h1c]
        subst h1c
        exact hlock1
      · rw [if_neg h1c]
        exact (h1 ex cur').2
  · rw [if_neg he]
    exact (h1 ex' cur').2

theorem inv_confirm {s : InventoryEngine} (h : LedgerInv s) (ex base quote side : String)
    {a p f : ℚ} (ha : 0 ≤ a) (hp : 0 ≤ p) (hf0 : 0 ≤ f) (hf1 : f ≤ 1) :
    LedgerInv (exceptState (confirm_trade s ex base quote side a p f)) := by
  have hcost : 0 ≤ a * p := mul_nonneg ha hp
  unfold confirm_trade
  dsimp only
  by_cases hb : side = "buy"
  · rw [if_pos hb]
    have h1 : LedgerInv (rollback_liquidity s ex quote (a * p)) :=
      inv_rollback h ex quote hcost
    cases hc : dget (rollback_liquidity s ex quote (a * p)).confirmed_balances ex with
    | none =>
      rw [exceptState_error]
      exact h1
    | some inner =>
      rw [exceptState_ok]
      refine inv_confirm_core _ h1 ex quote base (a * p) (a * (1 - f))
        (mul_nonneg ha (by linarith)) ?_ inner hc
      have hrb := lockedAmt_rollback s ex quote (a * p) hcost ex quote
      rw [if_pos ⟨rfl, rfl⟩] at hrb
      rw [hrb, confirmedAmt_rollback]
      exact max_le_max (le_refl 0) (sub_le_sub_right (h ex quote).2 _)
  · by_cases hs : side = "sell"
    · rw [if_neg hb, if_pos hs]
      have h1 : LedgerInv (rollback_liquidity s ex base a) :=
        inv_rollback h ex base ha
      cases hc : dget (rollback_liquidity s ex base a).confirmed_balances ex with
      | none =>
        rw [exceptState_error]
        exact h1
      | some inner =>
        rw [exceptState_ok]
        refine inv_confirm_core _ h1 ex base quote a (a * p * (1 - f))
          (mul_nonneg hcost (by linarith)) ?_ inner hc
        have hrb := lockedAmt_rollback s ex base a ha ex base
        rw [if_pos ⟨rfl, rfl⟩] at hrb
        rw [hrb, confirmedAmt_rollback]
        exact max_le_max (le_refl 0) (sub_le_sub_right (h ex base).2 _)
    · rw [if_neg hb, if_neg hs, exceptState_ok]
      exact h

theorem inv_empty : LedgerInv InventoryEngine.empty := by
  intro ex cur
  simp [lockedAmt, confirmedAmt, InventoryEngine.empty, dget]

theorem inv_applyOp {s : InventoryEngine} (h : LedgerInv s) {op : LedgerOp}
    (hv : ValidOp op) : LedgerInv (applyOp s op) := by
  cases op with
  | reserve ex cur a => exact inv_reserve h ex cur hv
  | rollback ex cur a => exact inv_rollback h ex cur hv
  | confirm ex b q side a p f =>
    obtain ⟨ha, hp, hf0, hf1⟩ := hv
    exact inv_confirm h ex b q side ha hp hf0 hf1
  | sync results => exact inv_sync h results

theorem ledgerInv_foldl : ∀ (ops : List LedgerOp) (s : InventoryEngine),
    (∀ op ∈ ops, ValidOp op) → LedgerInv s → LedgerInv (ops.foldl applyOp s)
  | [], _, _, h => h
  | op :: rest, s, hv, h =>
    ledgerInv_foldl rest (applyOp s op)
      (fun o ho => hv o (List.mem_cons_of_mem op ho))
      (inv_applyOp h (hv op (List.mem_cons_self op rest)))

/-- C1: for every ledger state reachable from the empty ledger by any sequence
of reserve, rollback, confirm_fill and sync operations (over the operations'
real domains: nonnegative amounts and prices, fee rates in [0, 1]), and for
every (venue, currency) pair, `confirmed_amount - locked_amount ≥ 0`. -/
theorem ledger_available_nonneg (ops : List LedgerOp)
    (hv : ∀ op ∈ ops, ValidOp op) (ex cur : String) :
    0 ≤ confirmedAmt (runOps ops) ex cur - lockedAmt (runOps ops) ex cur := by
  have h := ledgerInv_foldl ops InventoryEngine.empty hv inv_empty
  have h2 := h ex cur
  unfold runOps
  linarith [h2.1, h2.2]

/-- Witness for C1: a concrete run exercising all four operations. -/
theorem ledger_available_nonneg_witness :
    0 ≤ confirmedAmt (runOps [LedgerOp.sync [("binance", some (some [("USDT", 100)]))],
          LedgerOp.reserve "binance" "USDT" 40,
          LedgerOp.confirm "binance" "SOL" "USDT" "buy" 1 30 0,
          LedgerOp.rollback "binance" "USDT" 10]) "binance" "USDT"
      - lockedAmt (runOps [LedgerOp.sync [("binance", some (some [("USDT", 100)]))],
          LedgerOp.reserve "binance" "USDT" 40,
          LedgerOp.confirm "binance" "SOL" "USDT" "buy" 1 30 0,
          LedgerOp.rollback "binance" "USDT" 10]) "binance" "USDT" :=
  ledger_available_nonneg
    [LedgerOp.sync [("binance", some (some [("USDT", 100)]))],
      LedgerOp.reserve "binance" "USDT" 40,
      LedgerOp.confirm "binance" "SOL" "USDT" "buy" 1 30 0,
      LedgerOp.rollback "binance" "USDT" 10]
    (by decide) "binance" "USDT"

/-- C2: if available (= max(0, confirmed - locked)) is at least `amount`,
`reserve_liquidity` returns true and adds exactly `amount` to that key's lock,
touching nothing else; otherwise it returns false and leaves the whole state
unchanged. -/
theorem reserve_liquidity_spec (s : InventoryEngine) (ex cur : String) (a : ℚ) :
    (a ≤ get_available_balance s ex cur →
      (reserve_liquidity s ex cur a).1 = true
      ∧ lockedAmt (reserve_liquidity s ex cur a).2 ex cur = lockedAmt s ex cur + a
      ∧ (∀ ex' cur', ¬(ex = ex' ∧ cur = cur') →
          lockedAmt (reserve_liquidity s ex cur a).2 ex' cur' = lockedAmt s ex' cur')
      ∧ (reserve_liquidity s ex cur a).2.confirmed_balances = s.confirmed_balances)
    ∧ (¬ a ≤ get_available_balance s ex cur →
      reserve_liquidity s ex cur a = (false, s)) := by
  constructor
  · intro h
    obtain ⟨hret, hlock, hconf⟩ := reserve_liquidity_success s ex cur a h
    refine ⟨hret, ?_, ?_, hconf⟩
    · rw [hlock ex cur, if_pos ⟨rfl, rfl⟩]
    · intro ex' cur' hne
      rw [hlock ex' cur', if_neg hne]
  · intro h
    exact reserve_liquidity_fail s ex cur a h

/-- Witness for C2 (the spec's Scenario 4): reserving 1000 USDT against an
available balance of 500 is denied and mutates nothing. -/
theorem reserve_liquidity_spec_witness :
    reserve_liquidity ⟨[("binance", [("USDT", 500)])], []⟩ "binance" "USDT" 1000
      = (false, ⟨[("binance", [("USDT", 500)])], []⟩) :=
  (reserve_liquidity_spec ⟨[("binance", [("USDT", 500)])], []⟩ "binance" "USDT" 1000).2
    (by simp +decide [get_available_balance, confirmedAmt, lockedAmt, dget])

/-!
## Risk gate claims
-/

/-- C4: `pre_trade_check` approves exactly when, in order, the kill-switch is
clear, the spread is not below the floor, cumulative PnL is not below the
negative drawdown limit, and the notional does not exceed the per-trade cap;
the kill-switch is set by the call exactly when the first two gates pass and
the drawdown gate fires; nothing else in the state changes. -/
theorem pre_trade_check_spec (cfg : Config) (s : RiskEngine) (opp : Opportunity) :
    ((pre_trade_check cfg s opp).1 = true ↔
      (s.kill_switch = false
        ∧ ¬ opp.gross_spread_bps < cfg.min_spread_bps
        ∧ ¬ s.daily_pnl < -cfg.max_daily_drawdown_usd
        ∧ ¬ cfg.max_exposure_per_trade_usd < opp.quantity * opp.buy_price))
    ∧ ((pre_trade_check cfg s opp).2.kill_switch = true ↔
      (s.kill_switch = true
        ∨ (¬ opp.gross_spread_bps < cfg.min_spread_bps
            ∧ s.daily_pnl < -cfg.max_daily_drawdown_usd)))
    ∧ (pre_trade_check cfg s opp).2.daily_pnl = s.daily_pnl
    ∧ (pre_trade_check cfg s opp).2.consecutive_fails = s.consecutive_fails
    ∧ (pre_trade_check cfg s opp).2.total_attempts = s.total_attempts := by
  unfold pre_trade_check
  by_cases h1 : s.kill_switch
  · simp [h1]
  · by_cases h2 : opp.gross_spread_bps < cfg.min_spread_bps
    · simp [h1, h2]
    · by_cases h3 : s.daily_pnl < -cfg.max_daily_drawdown_usd
      · simp [h1, h2, h3]
      · by_cases h4 : cfg.max_exposure_per_trade_usd < opp.quantity * opp.buy_price
        · simp [h1, h2, h3, h4]
        · simp [h1, h2, h3, h4]

theorem kill_switch_mono_step (cfg : Config) (s : RiskEngine)
    (h : s.kill_switch = true) (op : RiskOp) :
    (applyRiskOp cfg s op).kill_switch = true := by
  cases op with
  | approve opp =>
    unfold applyRiskOp pre_trade_check
    simp [h]
  | record success pnl =>
    unfold applyRiskOp record_execution_result
    by_cases hs : success
    · simp [hs, h]
    · by_cases hth : cfg.max_consecutive_failures ≤ s.consecutive_fails + 1 <;>
        simp [hs, hth, h]
  | validate now data => exact h

theorem kill_switch_mono_foldl (cfg : Config) : ∀ (ops : List RiskOp)
    (s : RiskEngine), s.kill_switch = true →
    (ops.foldl (applyRiskOp cfg) s).kill_switch = true
  | [], _, h => h
  | op :: rest, s, h =>
    kill_switch_mono_foldl cfg rest (applyRiskOp cfg s op)
      (kill_switch_mono_step cfg s h op)

/-- C5: once the kill-switch is set, no sequence of approve, record_result or
validate_quote operations ever clears it, and every subsequent approve returns
false, whatever the opportunity. -/
theorem kill_switch_one_way (cfg : Config) (s : RiskEngine)
    (h : s.kill_switch = true) (ops : List RiskOp) :
    (applyRiskOps cfg s ops).kill_switch = true
    ∧ ∀ opp : Opportunity, (pre_trade_check cfg (applyRiskOps cfg s ops) opp).1 = false := by
  have hk : (applyRiskOps cfg s ops).kill_switch = true :=
    kill_switch_mono_foldl cfg ops s h
  refine ⟨hk, fun opp => ?_⟩
  unfold pre_trade_check
  simp [hk]

/-- Witness for C5: from a kill-switched state, a record/approve/validate
sequence leaves the switch set and a further approve is denied. -/
theorem kill_switch_one_way_witness :
    (applyRiskOps ⟨50, 300, 200, 3, 2, 100, false, [], false⟩ ⟨0, 0, true, 0, 0, 0, 0⟩
        [RiskOp.record true 5,
         RiskOp.approve ⟨"SOL/USDT", "SOL/USDT", "a", "b", 100, 101, 1, 100, 1, 0⟩,
         RiskOp.validate 0 ⟨"binance", "SOL/USDT", 100, 1, 101, 1, 0⟩]).kill_switch = true
    ∧ (pre_trade_check ⟨50, 300, 200, 3, 2, 100, false, [], false⟩
        (applyRiskOps ⟨50, 300, 200, 3, 2, 100, false, [], false⟩ ⟨0, 0, true, 0, 0, 0, 0⟩
          [RiskOp.record true 5,
           RiskOp.approve ⟨"SOL/USDT", "SOL/USDT", "a", "b", 100, 101, 1, 100, 1, 0⟩,
           RiskOp.validate 0 ⟨"binance", "SOL/USDT", 100, 1, 101, 1, 0⟩])
        ⟨"SOL/USDT", "SOL/USDT", "a", "b", 100, 101, 1, 100, 1, 0⟩).1 = false := by
  refine ⟨(kill_switch_one_way _ _ rfl _).1, (kill_switch_one_way _ _ rfl _).2 _⟩

theorem record_fail_step (cfg : Config) (s : RiskEngine) (p : ℚ) :
    (record_execution_result cfg s false p).consecutive_fails = s.consecutive_fails + 1
    ∧ ((record_execution_result cfg s false p).kill_switch = true ↔
        (s.kill_switch = true ∨ cfg.max_consecutive_failures ≤ s.consecutive_fails + 1)) := by
  unfold record_execution_result
  by_cases h : cfg.max_consecutive_failures ≤ s.consecutive_fails + 1 <;> simp [h]

theorem iter_record_fail (cfg : Config) (p : ℚ) : ∀ (k : ℕ) (s0 : RiskEngine),
    (((fun st => record_execution_result cfg st false p)^[k] s0).consecutive_fails
        = s0.consecutive_fails + k)
    ∧ (((fun st => record_execution_result cfg st false p)^[k] s0).kill_switch = true ↔
        (s0.kill_switch = true
          ∨ (1 ≤ k ∧ cfg.max_consecutive_failures ≤ s0.consecutive_fails + k))) := by
  intro k
  induction k with
  | zero => intro s0; simp
  | succ k ih =>
    intro s0
    rw [Function.iterate_succ_apply]
    obtain ⟨ihf, ihk⟩ := ih (record_execution_result cfg s0 false p)
    obtain ⟨hf, hk⟩ := record_fail_step cfg s0 p
    constructor
    · rw [ihf, hf]
      omega
    · rw [ihk, hf, hk]
      constructor
      · rintro ((h | h) | ⟨h1, h2⟩)
        · exact Or.inl h
        · exact Or.inr ⟨by omega, by omega⟩
        · exact Or.inr ⟨by omega, by omega⟩
      · rintro (h | ⟨h1, h2⟩)
        · exact Or.inl (Or.inl h)
        · by_cases hk1 : cfg.max_consecutive_failures ≤ s0.consecutive_fails + 1
          · exact Or.inl (Or.inr hk1)
          · exact Or.inr ⟨by omega, by omega⟩

/-- C6: `record_execution_result` adds `pnl` to cumulative PnL and one to the
attempt counter; success resets the consecutive-failure counter; failure
increments it and sets the kill-switch exactly when the incremented counter
reaches (i.e. is at least) the configured threshold — in particular, from a
fresh state, N consecutive failures with N = threshold ≥ 1 set the switch. -/
theorem record_execution_result_spec (cfg : Config) (s : RiskEngine) (p : ℚ) :
    (∀ success, (record_execution_result cfg s success p).daily_pnl = s.daily_pnl + p
      ∧ (record_execution_result cfg s success p).total_attempts = s.total_attempts + 1)
    ∧ (record_execution_result cfg s true p).consecutive_fails = 0
    ∧ (record_execution_result cfg s false p).consecutive_fails = s.consecutive_fails + 1
    ∧ (record_execution_result cfg s true p).kill_switch = s.kill_switch
    ∧ ((record_execution_result cfg s false p).kill_switch = true ↔
        (s.kill_switch = true ∨ cfg.max_consecutive_failures ≤ s.consecutive_fails + 1))
    ∧ (∀ s0 : RiskEngine, s0.consecutive_fails = 0 → s0.kill_switch = false →
        1 ≤ cfg.max_consecutive_failures →
        ((fun st => record_execution_result cfg st false p)^[cfg.max_consecutive_failures]
          s0).kill_switch = true) := by
  refine ⟨?_, ?_, (record_fail_step cfg s p).1, ?_, (record_fail_step cfg s p).2, ?_⟩
  · intro success
    unfold record_execution_result
    by_cases hs : success
    · simp [hs]
    · by_cases hth : cfg.max_consecutive_failures ≤ s.consecutive_fails + 1 <;>
        simp [hs, hth]
  · unfold record_execution_result
    simp
  · unfold record_execution_result
    simp
  · intro s0 hf hk hthr
    rw [(iter_record_fail cfg p cfg.max_consecutive_failures s0).2]
    exact Or.inr ⟨hthr, by omega⟩

/-- Witness for C6: with threshold 2, two consecutive recorded failures from
the initial risk state set the kill-switch. -/
theorem record_execution_result_spec_witness :
    ((fun st => record_execution_result ⟨50, 300, 200, 2, 2, 100, false, [], false⟩
        st false 0)^[2] RiskEngine.init).kill_switch = true :=
  (record_execution_result_spec ⟨50, 300, 200, 2, 2, 100, false, [], false⟩
      RiskEngine.init 0).2.2.2.2.2 RiskEngine.init rfl rfl (by decide)

/-!
## Sync idempotence and confirm_trade partiality
-/

theorem dget_syncStep_confirmed (st : InventoryEngine) (v0 : String) (r0 : FetchResult)
    (v : String) :
    dget (syncStep st (v0, r0)).confirmed_balances v =
      match r0 with
      | some (some free) =>
        if v0 = v then some (cleanBal free) else dget st.confirmed_balances v
      | _ => dget st.confirmed_balances v := by
  cases r0 with
  | none => rfl
  | some ro =>
    cases ro with
    | none => rfl
    | some free =>
      dsimp only [syncStep]
      rw [dget_dset]

theorem lastFree_cons (v0 : String) (r0 : FetchResult)
    (rest : List (String × FetchResult)) (v : String) :
    lastFree ((v0, r0) :: rest) v =
      match lastFree rest v with
      | some f => some f
      | none =>
        match r0 with
        | some (some free) => if v0 = v then some free else none
        | _ => none := rfl

theorem dget_sync_confirmed : ∀ (results : List (String × FetchResult))
    (s : InventoryEngine) (v : String),
    dget (sync_balances s results).confirmed_balances v =
      match lastFree results v with
      | some free => some (cleanBal free)
      | none => dget s.confirmed_balances v := by
  intro results
  induction results with
  | nil => intro s v; rfl
  | cons vr rest ih =>
    intro s v
    obtain ⟨v0, r0⟩ := vr
    show dget (sync_balances (syncStep s (v0, r0)) rest).confirmed_balances v = _
    rw [ih (syncStep s (v0, r0)) v, dget_syncStep_confirmed, lastFree_cons]
    cases hrest : lastFree rest v with
    | some f => rfl
    | none =>
      dsimp only
      cases r0 with
      | none => rfl
      | some ro =>
        cases ro with
        | none => rfl
        | some free =>
          dsimp only
          by_cases hv : v0 = v <;> simp [hv]

/-- C9: two consecutive `sync_balances` passes with the same per-venue fetch
results and no intervening trades leave the confirmed balances identical to
those after the first pass. -/
theorem sync_balances_idempotent (s : InventoryEngine)
    (results : List (String × FetchResult)) (v : String) :
    dget (sync_balances (sync_balances s results) results).confirmed_balances v
      = dget (sync_balances s results).confirmed_balances v := by
  have h1 := dget_sync_confirmed results s v
  have h2 := dget_sync_confirmed results (sync_balances s results) v
  cases h : lastFree results v with
  | some f =>
    rw [h] at h1 h2
    dsimp only at h1 h2
    rw [h1, h2]
  | none =>
    rw [h] at h1 h2
    dsimp only at h1 h2
    exact h2

/-- C10: `confirm_trade` is partial at the public interface — for any state
whose confirmed-balances dict has no entry for the venue, a buy or sell
confirm raises `KeyError` (modelled as `.error`) — whereas
`reserve_liquidity`, `rollback_liquidity` and `get_available_balance` are
total and treat missing entries as zero: with the venue absent from both
dicts the available balance is 0, rollback is a no-op, and reserve succeeds
exactly for non-positive amounts. -/
theorem confirm_trade_partiality (s : InventoryEngine) (ex base quote side : String)
    (a p f : ℚ) (cur : String) :
    ((side = "buy" ∨ side = "sell") → dget s.confirmed_balances ex = none →
      (confirm_trade s ex base quote side a p f).isOk = false)
    ∧ (dget s.confirmed_balances ex = none → confirmedAmt s ex cur = 0)
    ∧ (dget s.confirmed_balances ex = none → dget s.locked_balances ex = none →
        get_available_balance s ex cur = 0
        ∧ rollback_liquidity s ex cur a = s
        ∧ ((reserve_liquidity s ex cur a).1 = true ↔ a ≤ 0)) := by
  refine ⟨?_, ?_, ?_⟩
  · rintro (hside | hside) hnone
    · unfold confirm_trade
      rw [if_pos hside]
      have hc : dget (rollback_liquidity s ex quote (a * p)).confirmed_balances ex = none := by
        rw [rollback_confirmed]
        exact hnone
      dsimp only
      rw [hc]
      rfl
    · unfold confirm_trade
      have hbs : side = "buy" ↔ False := by
        constructor
        · intro hb
          rw [hb] at hside
          exact absurd hside (by decide)
        · exact False.elim
      rw [if_neg (by rw [hbs]; exact id), if_pos hside]
      have hc : dget (rollback_liquidity s ex base a).confirmed_balances ex = none := by
        rw [rollback_confirmed]
        exact hnone
      dsimp only
      rw [hc]
      rfl
  · intro hnone
    simp [confirmedAmt, hnone, dget]
  · intro hnone hlnone
    have hc : confirmedAmt s ex cur = 0 := by simp [confirmedAmt, hnone, dget]
    have hl : lockedAmt s ex cur = 0 := by simp [lockedAmt, hlnone, dget]
    have hav : get_available_balance s ex cur = 0 := by
      simp [get_available_balance, hc, hl]
    refine ⟨hav, ?_, ?_⟩
    · unfold rollback_liquidity
      rw [hlnone]
    · constructor
      · intro hr
        by_contra hna
        rw [reserve_liquidity_fail s ex cur a (by rw [hav]; exact fun h => hna (by linarith))] at hr
        simp at hr
      · intro hle
        exact (reserve_liquidity_success s ex cur a (by rw [hav]; exact hle)).1

/-- Witness for C10: on the empty ledger, a buy confirm for a missing venue
errors, while the available-balance query and rollback are total no-ops. -/
theorem confirm_trade_partiality_witness :
    (confirm_trade InventoryEngine.empty "binance" "SOL" "USDT" "buy" 1 30 0).isOk = false
    ∧ get_available_balance InventoryEngine.empty "binance" "USDT" = 0
    ∧ rollback_liquidity InventoryEngine.empty "binance" "USDT" 5 = InventoryEngine.empty :=
  ⟨(confirm_trade_partiality InventoryEngine.empty "binance" "SOL" "USDT" "buy"
      1 30 0 "USDT").1 (Or.inl rfl) rfl,
   ((confirm_trade_partiality InventoryEngine.empty "binance" "SOL" "USDT" "buy"
      1 30 0 "USDT").2.2 rfl rfl).1,
   ((confirm_trade_partiality InventoryEngine.empty "binance" "SOL" "USDT" "buy"
      5 30 0 "USDT").2.2 rfl rfl).2.1⟩

/-!
## Execution service claims
-/

/-- C3: in an orphan outcome (exactly one leg filled), `execute_atomic` returns
failure, dispatches exactly one opposing market order for the exact filled
quantity on the venue where the fill occurred, and — when that unwind order
succeeds — reports PnL equal to the fixed loss fraction (5%) of the filled
leg's notional at its planned price. -/
theorem execute_atomic_orphan_spec (cfg : Config) (opp : Opportunity)
    (unwind : OrderOutcome) (r : LegResult)
    (hdry : cfg.dry_run = false) (hfill : r.isFilled = true) :
    ((execute_atomic cfg opp r .err unwind).1.1 = false
      ∧ (execute_atomic cfg opp r .err unwind).2
          = [⟨opp.buy_ex, opp.symbol, "market", "sell", opp.quantity⟩]
      ∧ (unwind = .ok →
          (execute_atomic cfg opp r .err unwind).1.2.1
            = -(opp.quantity * opp.buy_price * (5 / 100))))
    ∧ ((execute_atomic cfg opp .err r unwind).1.1 = false
      ∧ (execute_atomic cfg opp .err r unwind).2
          = [⟨opp.sell_ex, opp.symbol, "market", "buy", opp.quantity⟩]
      ∧ (unwind = .ok →
          (execute_atomic cfg opp .err r unwind).1.2.1
            = -(opp.quantity * opp.sell_price * (5 / 100)))) := by
  cases r with
  | err => exact Bool.noConfusion hfill
  | fill avg pr =>
    cases unwind with
    | ok =>
      unfold execute_atomic
      rw [hdry]
      exact ⟨⟨rfl, rfl, fun _ => rfl⟩, ⟨rfl, rfl, fun _ => rfl⟩⟩
    | raised =>
      unfold execute_atomic
      rw [hdry]
      exact ⟨⟨rfl, rfl, fun h => OrderOutcome.noConfusion h⟩,
        ⟨rfl, rfl, fun h => OrderOutcome.noConfusion h⟩⟩
  | fillOther =>
    cases unwind with
    | ok =>
      unfold execute_atomic
      rw [hdry]
      exact ⟨⟨rfl, rfl, fun _ => rfl⟩, ⟨rfl, rfl, fun _ => rfl⟩⟩
    | raised =>
      unfold execute_atomic
      rw [hdry]
      exact ⟨⟨rfl, rfl, fun h => OrderOutcome.noConfusion h⟩,
        ⟨rfl, rfl, fun h => OrderOutcome.noConfusion h⟩⟩

/-- Witness for C3: a concrete buy-filled/sell-rejected orphan with a
successful unwind. -/
theorem execute_atomic_orphan_spec_witness :
    (execute_atomic ⟨50, 300, 200, 3, 2, 100, false, [], false⟩
        ⟨"SOL/USDT", "SOL/USDT", "binance", "kraken", 100, 101, 1, 100, 1, 0⟩
        LegResult.fillOther LegResult.err OrderOutcome.ok).1.1 = false
    ∧ (execute_atomic ⟨50, 300, 200, 3, 2, 100, false, [], false⟩
        ⟨"SOL/USDT", "SOL/USDT", "binance", "kraken", 100, 101, 1, 100, 1, 0⟩
        LegResult.fillOther LegResult.err OrderOutcome.ok).2
      = [⟨"binance", "SOL/USDT", "market", "sell", 1⟩]
    ∧ (execute_atomic ⟨50, 300, 200, 3, 2, 100, false, [], false⟩
        ⟨"SOL/USDT", "SOL/USDT", "binance", "kraken", 100, 101, 1, 100, 1, 0⟩
        LegResult.fillOther LegResult.err OrderOutcome.ok).1.2.1
      = -((1 : ℚ) * 100 * (5 / 100)) :=
  ⟨((execute_atomic_orphan_spec ⟨50, 300, 200, 3, 2, 100, false, [], false⟩
      ⟨"SOL/USDT", "SOL/USDT", "binance", "kraken", 100, 101, 1, 100, 1, 0⟩
      OrderOutcome.ok LegResult.fillOther rfl rfl).1).1,
   ((execute_atomic_orphan_spec ⟨50, 300, 200, 3, 2, 100, false, [], false⟩
      ⟨"SOL/USDT", "SOL/USDT", "binance", "kraken", 100, 101, 1, 100, 1, 0⟩
      OrderOutcome.ok LegResult.fillOther rfl rfl).1).2.1,
   ((execute_atomic_orphan_spec ⟨50, 300, 200, 3, 2, 100, false, [], false⟩
      ⟨"SOL/USDT", "SOL/USDT", "binance", "kraken", 100, 101, 1, 100, 1, 0⟩
      OrderOutcome.ok LegResult.fillOther rfl rfl).1).2.2 rfl⟩

/-!
## Detection pass claims
-/

/-- C7 (amended): per ordered candidate pair, the detection body skips pairs
with a non-positive buy-side ask or sell-side bid and pairs with
`buy_price ≥ sell_price`, and every emitted opportunity records
`buy_price = ask(buy_venue)`, `sell_price = bid(sell_venue)` and
`gross_spread_bps = (sell_price - buy_price) / buy_price * 10000`. There is no
sanity-ceiling check: arbitrarily large spreads are not discarded. -/
theorem evalPair_spec (cfg : Config) (risk : RiskEngine) (inv : InventoryEngine)
    (now : ℚ) (symbol base ex_a ex_b : String) (ta tb : TickerData) :
    ((ta.ask_price ≤ 0 ∨ tb.bid_price ≤ 0) →
      evalPair cfg risk inv now symbol base ex_a ex_b ta tb = (none, risk))
    ∧ (tb.bid_price ≤ ta.ask_price →
      evalPair cfg risk inv now symbol base ex_a ex_b ta tb = (none, risk))
    ∧ (∀ (opp : Opportunity) (risk' : RiskEngine),
        evalPair cfg risk inv now symbol base ex_a ex_b ta tb = (some opp, risk') →
        0 < ta.ask_price ∧ ta.ask_price < tb.bid_price
        ∧ opp.buy_price = ta.ask_price ∧ opp.sell_price = tb.bid_price
        ∧ opp.gross_spread_bps = (tb.bid_price - ta.ask_price) / ta.ask_price * 10000) := by
  refine ⟨?_, ?_, ?_⟩
  · intro h
    unfold evalPair
    rw [if_pos h]
  · intro h
    unfold evalPair
    by_cases h1 : ta.ask_price ≤ 0 ∨ tb.bid_price ≤ 0
    · rw [if_pos h1]
    · rw [if_neg h1]
      dsimp only
      rw [if_pos h]
  · intro opp risk' h
    unfold evalPair at h
    by_cases h1 : ta.ask_price ≤ 0 ∨ tb.bid_price ≤ 0
    · rw [if_pos h1] at h
      simp at h
    · rw [if_neg h1] at h
      dsimp only at h
      by_cases h2 : tb.bid_price ≤ ta.ask_price
      · rw [if_pos h2] at h
        simp at h
      · rw [if_neg h2] at h
        push_neg at h1 h2
        refine ⟨h1.1, h2, ?_⟩
        by_cases h3 : cfg.min_spread_bps
            < (tb.bid_price - ta.ask_price) / ta.ask_price * 10000
        · rw [if_pos h3] at h
          by_cases h4 : ¬(validate_market_data cfg now ta
              && validate_market_data cfg now tb) = true ∧ ¬cfg.is_testnet = true
          · rw [if_pos h4] at h
            simp at h
          · rw [if_neg h4] at h
            split_ifs at h
            all_goals
              first
              | (simp at h
                 done)
              | (simp only [Prod.mk.injEq, Option.some.injEq] at h
                 obtain ⟨h8, h9⟩ := h
                 subst h8
                 exact ⟨rfl, rfl, rfl⟩)
        · rw [if_neg h3] at h
          simp at h

/-- Concrete evaluation of the detection body on the spec's Scenario 1 data
(ask 100, bid 101, $100 target, ample balances, 10 bps fees): the emitted
opportunity has quantity 1, spread 100 bps and positive net profit. -/
theorem evalPair_scenario_eval :
    evalPair ⟨50, 1000, 1000000, 3, 2, 100, false, [], false⟩ RiskEngine.init
      ⟨[("a", [("USDT", 1000000)]), ("b", [("SOL", 1000000)])], []⟩ 0
      "SOL/USDT" "SOL" "a" "b"
      ⟨"a", "SOL/USDT", 99, 50, 100, 50, 0⟩
      ⟨"b", "SOL/USDT", 101, 50, 102, 50, 0⟩
    = (some ⟨"SOL/USDT", "SOL/USDT", "a", "b", 100, 101, 1, 100, 799 / 1000, 0⟩,
       RiskEngine.init) := by
  norm_num [evalPair, validate_market_data, get_available_balance, confirmedAmt,
    lockedAmt, dget, feeRate, pre_trade_check, RiskEngine.init]

/-- Counterexample for C7: the detection pair body has no sanity ceiling — on a
corrupt feed with ask 0.001 against bid 1000 it emits an opportunity whose
gross spread is 9,999,990,000 bps, discarding nothing as anomalous. -/
theorem no_sanity_ceiling_counterexample :
    ((evalPair ⟨50, 1000, 1000000, 3, 2, 100, false, [], false⟩ RiskEngine.init
        ⟨[("a", [("USDT", 1000)]), ("b", [("SOL", 20000)])], []⟩ 0 "SOL/USDT" "SOL" "a" "b"
        ⟨"a", "SOL/USDT", 1 / 2000, 0, 1 / 1000, 100000, 0⟩
        ⟨"b", "SOL/USDT", 1000, 100000, 1001, 1, 0⟩).1.map
      Opportunity.gross_spread_bps) = some 9999990000 := by
  norm_num [evalPair, validate_market_data,
    get_available_balance, confirmedAmt, lockedAmt, dget, feeRate, pre_trade_check,
    RiskEngine.init]

/-- Witness for C7 (amended): a zero ask is skipped, a crossed-or-equal book
(bid ≤ ask) is skipped, and the Scenario-1 emission carries the ask/bid prices
and the spread formula. -/
theorem evalPair_spec_witness :
    (evalPair ⟨50, 1000, 1000000, 3, 2, 100, false, [], false⟩ RiskEngine.init
        ⟨[("a", [("USDT", 1000000)]), ("b", [("SOL", 1000000)])], []⟩ 0
        "SOL/USDT" "SOL" "a" "b"
        ⟨"a", "SOL/USDT", 99, 50, 0, 50, 0⟩
        ⟨"b", "SOL/USDT", 101, 50, 102, 50, 0⟩ = (none, RiskEngine.init))
    ∧ (evalPair ⟨50, 1000, 1000000, 3, 2, 100, false, [], false⟩ RiskEngine.init
        ⟨[("a", [("USDT", 1000000)]), ("b", [("SOL", 1000000)])], []⟩ 0
        "SOL/USDT" "SOL" "a" "b"
        ⟨"a", "SOL/USDT", 99, 50, 100, 50, 0⟩
        ⟨"b", "SOL/USDT", 100, 50, 102, 50, 0⟩ = (none, RiskEngine.init))
    ∧ (0 < (100 : ℚ) ∧ (100 : ℚ) < 101
        ∧ (⟨"SOL/USDT", "SOL/USDT", "a", "b", 100, 101, 1, 100, 799 / 1000, 0⟩
            : Opportunity).buy_price = 100
        ∧ (⟨"SOL/USDT", "SOL/USDT", "a", "b", 100, 101, 1, 100, 799 / 1000, 0⟩
            : Opportunity).sell_price = 101
        ∧ (⟨"SOL/USDT", "SOL/USDT", "a", "b", 100, 101, 1, 100, 799 / 1000, 0⟩
            : Opportunity).gross_spread_bps = ((101 : ℚ) - 100) / 100 * 10000) :=
  ⟨(evalPair_spec ⟨50, 1000, 1000000, 3, 2, 100, false, [], false⟩ RiskEngine.init
      ⟨[("a", [("USDT", 1000000)]), ("b", [("SOL", 1000000)])], []⟩ 0
      "SOL/USDT" "SOL" "a" "b"
      ⟨"a", "SOL/USDT", 99, 50, 0, 50, 0⟩
      ⟨"b", "SOL/USDT", 101, 50, 102, 50, 0⟩).1 (Or.inl (le_refl 0)),
   (evalPair_spec ⟨50, 1000, 1000000, 3, 2, 100, false, [], false⟩ RiskEngine.init
      ⟨[("a", [("USDT", 1000000)]), ("b", [("SOL", 1000000)])], []⟩ 0
      "SOL/USDT" "SOL" "a" "b"
      ⟨"a", "SOL/USDT", 99, 50, 100, 50, 0⟩
      ⟨"b", "SOL/USDT", 100, 50, 102, 50, 0⟩).2.1 (le_refl 100),
   (evalPair_spec ⟨50, 1000, 1000000, 3, 2, 100, false, [], false⟩ RiskEngine.init
      ⟨[("a", [("USDT", 1000000)]), ("b", [("SOL", 1000000)])], []⟩ 0
      "SOL/USDT" "SOL" "a" "b"
      ⟨"a", "SOL/USDT", 99, 50, 100, 50, 0⟩
      ⟨"b", "SOL/USDT", 101, 50, 102, 50, 0⟩).2.2
     ⟨"SOL/USDT", "SOL/USDT", "a", "b", 100, 101, 1, 100, 799 / 1000, 0⟩
     RiskEngine.init evalPair_scenario_eval⟩

/-- C8 (amended): in live (non-testnet) mode, every emitted opportunity's
quantity is the minimum of: target notional ÷ buy_price, top-of-book market
size (min of ask size and bid size), the buy venue's available quote balance
times 0.99 (a 1% fee reserve) ÷ buy_price, and the sell venue's available base
balance; and a candidate whose so-sized notional is below the $10 floor is
rejected. -/
theorem evalPair_sizing_spec (cfg : Config) (risk : RiskEngine) (inv : InventoryEngine)
    (now : ℚ) (symbol base ex_a ex_b : String) (ta tb : TickerData)
    (htn : cfg.is_testnet = false) :
    (∀ (opp : Opportunity) (risk' : RiskEngine),
        evalPair cfg risk inv now symbol base ex_a ex_b ta tb = (some opp, risk') →
        opp.quantity
          = min (min (min (cfg.sizing_amount / ta.ask_price) (min ta.ask_vol tb.bid_vol))
              (get_available_balance inv ex_a "USDT" * (99 / 100) / ta.ask_price))
              (get_available_balance inv ex_b base)
        ∧ 10 ≤ opp.quantity * ta.ask_price)
    ∧ (min (min (min (cfg.sizing_amount / ta.ask_price) (min ta.ask_vol tb.bid_vol))
          (get_available_balance inv ex_a "USDT" * (99 / 100) / ta.ask_price))
          (get_available_balance inv ex_b base) * ta.ask_price < 10 →
        (evalPair cfg risk inv now symbol base ex_a ex_b ta tb).1 = none) := by
  have hmain : ∀ (opp : Opportunity) (risk' : RiskEngine),
      evalPair cfg risk inv now symbol base ex_a ex_b ta tb = (some opp, risk') →
      opp.quantity
        = min (min (min (cfg.sizing_amount / ta.ask_price) (min ta.ask_vol tb.bid_vol))
            (get_available_balance inv ex_a "USDT" * (99 / 100) / ta.ask_price))
            (get_available_balance inv ex_b base)
      ∧ 10 ≤ opp.quantity * ta.ask_price := by
    intro opp risk' h
    unfold evalPair at h
    by_cases h1 : ta.ask_price ≤ 0 ∨ tb.bid_price ≤ 0
    · rw [if_pos h1] at h
      simp at h
    · rw [if_neg h1] at h
      dsimp only at h
      by_cases h2 : tb.bid_price ≤ ta.ask_price
      · rw [if_pos h2] at h
        simp at h
      · rw [if_neg h2] at h
        by_cases h3 : cfg.min_spread_bps
            < (tb.bid_price - ta.ask_price) / ta.ask_price * 10000
        · rw [if_pos h3] at h
          by_cases h4 : ¬(validate_market_data cfg now ta
              && validate_market_data cfg now tb) = true ∧ ¬cfg.is_testnet = true
          · rw [if_pos h4] at h
            simp at h
          · rw [if_neg h4] at h
            rw [if_neg (show ¬(cfg.is_testnet = true ∧ min ta.ask_vol tb.bid_vol ≤ 0)
              from by simp [htn])] at h
            split_ifs at h with h5 h6 h7
            · simp at h
            · simp at h
            · simp only [Prod.mk.injEq, Option.some.injEq] at h
              obtain ⟨h8, h9⟩ := h
              subst h8
              exact ⟨rfl, not_lt.mp h5⟩
            · simp at h
        · rw [if_neg h3] at h
          simp at h
  refine ⟨hmain, ?_⟩
  intro hmin
  cases hev : (evalPair cfg risk inv now symbol base ex_a ex_b ta tb).1 with
  | none => rfl
  | some opp =>
    have hpair : evalPair cfg risk inv now symbol base ex_a ex_b ta tb
        = (some opp, (evalPair cfg risk inv now symbol base ex_a ex_b ta tb).2) := by
      rw [← hev]
    obtain ⟨hq, hge⟩ := hmain opp _ hpair
    rw [hq] at hge
    linarith

/-- Counterexample for C8: with $100 of quote balance at buy price 100, the
code sizes the trade at 0.99 (the 1% fee haircut), not the claimed four-term
minimum, which is 1. -/
theorem sizing_haircut_counterexample :
    ((evalPair ⟨50, 1000, 1000000, 3, 2, 200, false, [], false⟩ RiskEngine.init
        ⟨[("a", [("USDT", 100)]), ("b", [("SOL", 5)])], []⟩ 0 "SOL/USDT" "SOL" "a" "b"
        ⟨"a", "SOL/USDT", 99, 5, 100, 5, 0⟩
        ⟨"b", "SOL/USDT", 110, 5, 111, 5, 0⟩).1.map Opportunity.quantity)
      = some (99 / 100)
    ∧ specSizedQty ⟨50, 1000, 1000000, 3, 2, 200, false, [], false⟩
        ⟨[("a", [("USDT", 100)]), ("b", [("SOL", 5)])], []⟩ "a" "b" "SOL" 100
        (min (5 : ℚ) 5) = 1
    ∧ (99 / 100 : ℚ) ≠ 1 := by
  refine ⟨?_, ?_, by norm_num⟩ <;>
    norm_num [evalPair, specSizedQty, validate_market_data, get_available_balance,
      confirmedAmt, lockedAmt, dget, feeRate, pre_trade_check, RiskEngine.init]

/-- Witness for C8 (amended): on the Scenario-1 inputs the emitted quantity 1
equals the haircut four-term minimum and clears the $10 notional floor. -/
theorem evalPair_sizing_spec_witness :
    (⟨"SOL/USDT", "SOL/USDT", "a", "b", 100, 101, 1, 100, 799 / 1000, 0⟩
        : Opportunity).quantity
      = min (min (min ((100 : ℚ) / 100) (min (50 : ℚ) 50))
          (get_available_balance ⟨[("a", [("USDT", 1000000)]), ("b", [("SOL", 1000000)])], []⟩
            "a" "USDT" * (99 / 100) / 100))
          (get_available_balance ⟨[("a", [("USDT", 1000000)]), ("b", [("SOL", 1000000)])], []⟩
            "b" "SOL")
    ∧ (10 : ℚ) ≤ (⟨"SOL/USDT", "SOL/USDT", "a", "b", 100, 101, 1, 100, 799 / 1000, 0⟩
        : Opportunity).quantity * 100 :=
  (evalPair_sizing_spec ⟨50, 1000, 1000000, 3, 2, 100, false, [], false⟩ RiskEngine.init
      ⟨[("a", [("USDT", 1000000)]), ("b", [("SOL", 1000000)])], []⟩ 0
      "SOL/USDT" "SOL" "a" "b"
      ⟨"a", "SOL/USDT", 99, 50, 100, 50, 0⟩
      ⟨"b", "SOL/USDT", 101, 50, 102, 50, 0⟩ rfl).1
    ⟨"SOL/USDT", "SOL/USDT", "a", "b", 100, 101, 1, 100, 799 / 1000, 0⟩
    RiskEngine.init evalPair_scenario_eval
